import Mathlib

/-
Verification of the context-compaction engine of the coding-agent repository.

The embedding below is a shallow translation of the TypeScript source.  The
repository carries the engine in one file that exists in several snapshots;
the complete build (the one containing the agent loop, the boundaryIndex
plumbing and the boundary-index-to-sequence translation in safeCompact) is
the program embedded here.  Where an earlier snapshot of the file differs in
a way that matters to a claim, the difference is called out at the relevant
definition or theorem.

Conventions of the embedding:
 * JS numbers holding integer quantities become Nat or Int; the one
   fractional configuration field (thresholdPercent) becomes a rational.
 * Message text is a Lean String; the JS s.startsWith(p) test is modelled
   on the underlying character lists.
 * JSON.stringify of an opaque tool input or output is modelled by carrying
   the serialized string itself in the content part.
 * The external language model behind generateSummary is an oracle
   parameter; a failing model invocation (a thrown error in the source) is
   the oracle returning none.
 * The SQLite database is a pair of tables (messages, compaction events);
   an UPDATE is a map over rows, an INSERT an append, and the multi-statement
   transaction of performCompaction is all-or-nothing per the storage
   collaborator contract assumed by the design.
-/

/-- Message roles (the role column of the messages table and the roles of
the in-memory ModelMessage values). -/
inductive Role where
  | system
  | user
  | assistant
  | tool
deriving DecidableEq

/-- One part of structured message content: a text segment, a tool
invocation (toolName plus the JSON.stringify of its args or input), or a
tool result (toolName plus the JSON.stringify of its output or result). -/
inductive ContentPart where
  | text (text : String)
  | toolCall (toolName : String) (argsJson : String)
  | toolResult (toolName : String) (outputJson : String)
deriving DecidableEq

/-- ModelMessage content: plain text or an ordered list of parts. -/
inductive MessageContent where
  | str (s : String)
  | parts (ps : List ContentPart)
deriving DecidableEq

/-- An in-memory conversation message (ModelMessage). -/
structure ChatMessage where
  role : Role
  content : MessageContent
deriving DecidableEq

/-- estimateTokens: the source computes Math.ceil(text.length / 4), written
here with natural-number arithmetic ((l + 3) / 4 is the ceiling of l / 4;
the equality with the rational ceiling is proved below). -/
def estimateTokens (text : String) : Nat :=
  (text.length + 3) / 4

/-- Per-part contribution inside estimateMessagesTokens: a text part counts
its text; a part with a toolName counts the name, the serialized args or
input if present, and the serialized output or result if present. -/
def estimatePart (p : ContentPart) : Nat :=
  match p with
  | ContentPart.text t => estimateTokens t
  | ContentPart.toolCall n a => estimateTokens n + estimateTokens a
  | ContentPart.toolResult n o => estimateTokens n + estimateTokens o

/-- Contribution of one message content value inside estimateMessagesTokens. -/
def estimateContent (c : MessageContent) : Nat :=
  match c with
  | MessageContent.str s => estimateTokens s
  | MessageContent.parts ps => (ps.map estimatePart).sum

/-- estimateMessagesTokens: two tokens of overhead per message for the role,
plus the estimate of every text-bearing piece of its content. -/
def estimateMessagesTokens (messages : List ChatMessage) : Nat :=
  (messages.map (fun m => 2 + estimateContent m.content)).sum

/-- Compaction configuration (CompactionConfig in the source). -/
structure CompactionConfig where
  modelContextLimit : Int
  systemReserve : Int
  outputReserve : Int
  safetyBuffer : Int
  thresholdPercent : ℚ
  recentMessagesToKeep : Nat

/-- calculateThreshold: Math.floor of the available budget times the
threshold percentage. -/
def calculateThreshold (config : CompactionConfig) : Int :=
  ⌊((config.modelContextLimit - config.systemReserve - config.outputReserve
      - config.safetyBuffer : Int) : ℚ) * config.thresholdPercent⌋

/-- shouldCompact: false when the list is no longer than keep-tail + 1,
otherwise the comparison of the conversation estimate with the threshold. -/
def shouldCompact (messages : List ChatMessage) (config : CompactionConfig) : Bool :=
  if messages.length ≤ config.recentMessagesToKeep + 1 then
    false
  else
    decide ((estimateMessagesTokens messages : Int) ≥ calculateThreshold config)

/-- The fixed literal prefix the selector tests for when detecting a prior
summary at index 1. -/
def summaryMarker : String := "## Session Summary"

/-- JS String.prototype.startsWith, modelled on the character lists of the
two strings. -/
def strStartsWith (s p : String) : Bool :=
  p.toList.isPrefixOf s.toList

/-- Prior-summary detection: message at index 1 has role assistant, string
content, and its text starts with the summary marker. -/
def detectPriorSummary (messages : List ChatMessage) : Option String :=
  match messages.get? 1 with
  | some (ChatMessage.mk Role.assistant (MessageContent.str s)) =>
      if strStartsWith s summaryMarker then some s else none
  | _ => none

/-- Role of the message at an index, none when out of range (the JS
messages[i]?.role access). -/
def roleAt (messages : List ChatMessage) (i : Nat) : Option Role :=
  (messages.get? i).map ChatMessage.role

/-- The boundary walk-back loop: while boundaryIndex > 1 and the message at
the boundary has role tool, decrement. -/
def walkBack (messages : List ChatMessage) : Nat → Nat
  | 0 => 0
  | 1 => 1
  | b + 2 =>
      if roleAt messages (b + 2) = some Role.tool then
        walkBack messages (b + 1)
      else
        b + 2

/-- Result of selectMessagesToCompact. -/
structure CompactionSelection where
  messagesToCompact : List ChatMessage
  messagesToKeep : List ChatMessage
  previousSummary : Option String
  boundaryIndex : Nat
deriving DecidableEq

/-- selectMessagesToCompact: early no-op when the list is short; otherwise
walk the boundary back over tool messages, detect a prior summary at
index 1 (start of compaction then moves to 2), no-op when the boundary is
at or before the start, and otherwise split the list at the start and
boundary indices. -/
def selectMessagesToCompact (messages : List ChatMessage) (keepLast : Nat) :
    CompactionSelection :=
  if messages.length ≤ keepLast + 1 then
    { messagesToCompact := []
      messagesToKeep := messages
      previousSummary := none
      boundaryIndex := 0 }
  else
    let boundaryIndex := walkBack messages (messages.length - keepLast)
    let previousSummary := detectPriorSummary messages
    let compactionStartIndex := if previousSummary.isSome then 2 else 1
    if boundaryIndex ≤ compactionStartIndex then
      { messagesToCompact := []
        messagesToKeep := messages
        previousSummary := previousSummary
        boundaryIndex := 0 }
    else
      { messagesToCompact :=
          (messages.drop compactionStartIndex).take (boundaryIndex - compactionStartIndex)
        messagesToKeep := messages.take 1 ++ messages.drop boundaryIndex
        previousSummary := previousSummary
        boundaryIndex := boundaryIndex }

/-- extractOriginalTask: the text of the first user message with string
content, or the fixed placeholder. -/
def extractOriginalTask : List ChatMessage → String
  | [] => "Unknown task"
  | ChatMessage.mk Role.user (MessageContent.str s) :: _ => s
  | _ :: rest => extractOriginalTask rest

/-- The summary heading that the generateSummary prompt template mandates
for the round (the section line of the EXACT-sections instruction block in
the prompt). -/
def mandatedSummaryHeading (compactionRound : Nat) : String :=
  "### Session Summary (Compaction Round " ++ toString compactionRound ++ ")"

/-- A row of the messages table.  The opaque id and createdAt columns play
no role in any claim and are omitted; isCompacted is the 0/1 integer flag
of the schema. -/
structure MessageRow where
  sessionId : String
  sequence : Nat
  role : Role
  content : String
  tokenCount : Nat
  isCompacted : Nat
deriving DecidableEq

/-- A row of the compaction_events table (id and createdAt omitted as
above). -/
structure CompactionEventRow where
  sessionId : String
  round : Nat
  tokensBefore : Nat
  tokensAfter : Nat
  summaryContent : String
deriving DecidableEq

/-- The persisted state: the two tables the compaction engine touches. -/
structure DB where
  messages : List MessageRow
  events : List CompactionEventRow
deriving DecidableEq

/-- Insertion step of the sequence-ordered read: places a row before the
first row with a not-smaller sequence. -/
def insertBySeq (m : MessageRow) : List MessageRow → List MessageRow
  | [] => [m]
  | x :: xs =>
      if m.sequence ≤ x.sequence then m :: x :: xs else x :: insertBySeq m xs

/-- ORDER BY sequence ASC over a list of rows. -/
def sortBySequence : List MessageRow → List MessageRow
  | [] => []
  | x :: xs => insertBySeq x (sortBySequence xs)

/-- getActiveMessages: the session's rows with isCompacted = 0, ordered by
sequence. -/
def getActiveMessages (sessionId : String) (db : DB) : List MessageRow :=
  sortBySequence
    (db.messages.filter (fun m => m.sessionId = sessionId ∧ m.isCompacted = 0))

/-- Row-wise effect of the markMessagesCompacted UPDATE: set isCompacted to
1 on the session's still-active rows below the boundary sequence. -/
def retireRow (sessionId : String) (beforeSequence : Nat) (m : MessageRow) :
    MessageRow :=
  if m.sessionId = sessionId ∧ m.sequence < beforeSequence ∧ m.isCompacted = 0 then
    { m with isCompacted := 1 }
  else
    m

/-- markMessagesCompacted: the standalone retire operation. -/
def markMessagesCompacted (sessionId : String) (beforeSequence : Nat) (db : DB) :
    DB :=
  { db with messages := db.messages.map (retireRow sessionId beforeSequence) }

/-- Row-wise effect of step 2 of performCompaction (the in-transaction
UPDATE has no isCompacted filter). -/
def retireRowTx (sessionId : String) (beforeSequence : Nat) (m : MessageRow) :
    MessageRow :=
  if m.sessionId = sessionId ∧ m.sequence < beforeSequence then
    { m with isCompacted := 1 }
  else
    m

/-- The last sequence number of a session (ORDER BY sequence DESC LIMIT 1,
defaulting to 0 on an empty session). -/
def lastSequence (sessionId : String) (rows : List MessageRow) : Nat :=
  ((rows.filter (fun m => m.sessionId = sessionId)).map MessageRow.sequence).foldl
    max 0

/-- getLastCompactionEvent: the session's event with the highest round
(ORDER BY round DESC LIMIT 1). -/
def getLastCompactionEvent (sessionId : String) (db : DB) : Option CompactionEventRow :=
  (db.events.filter (fun e => e.sessionId = sessionId)).foldl
    (fun acc e =>
      match acc with
      | none => some e
      | some a => if e.round > a.round then some e else some a)
    none

/-- The summaryMessage argument of performCompaction. -/
structure SummaryPayload where
  role : Role
  content : String
  tokenCount : Nat
deriving DecidableEq

/-- The metrics argument of performCompaction. -/
structure CompactionMetrics where
  round : Nat
  tokensBefore : Nat
  tokensAfter : Nat
deriving DecidableEq

/-- performCompaction: the three statements run inside one transaction:
(1) insert the compaction event, (2) mark the session's messages with
sequence below the boundary as compacted, (3) insert the summary as a new
active assistant message at the next sequence number.  The crash flag
simulates a failure thrown between steps (2) and (3); the storage
collaborator's transaction contract is all-or-nothing, so a failed
transaction yields none and the persisted state stays as it was (the
caller keeps using the original DB value). -/
def performCompaction (crash : Bool) (sessionId : String) (beforeSequence : Nat)
    (summaryMessage : SummaryPayload) (metrics : CompactionMetrics) (db : DB) :
    Option DB :=
  let db1 : DB :=
    { db with
        events := db.events ++
          [{ sessionId := sessionId
             round := metrics.round
             tokensBefore := metrics.tokensBefore
             tokensAfter := metrics.tokensAfter
             summaryContent := summaryMessage.content }] }
  let db2 : DB :=
    { db1 with messages := db1.messages.map (retireRowTx sessionId beforeSequence) }
  if crash then
    none
  else
    some
      { db2 with
          messages := db2.messages ++
            [{ sessionId := sessionId
               sequence := lastSequence sessionId db2.messages + 1
               role := Role.assistant
               content := summaryMessage.content
               tokenCount := summaryMessage.tokenCount
               isCompacted := 0 }] }

/-- The compactionEvent component of a CompactionResult. -/
structure CompactionEventInfo where
  round : Nat
  tokensBefore : Nat
  tokensAfter : Nat
  summaryContent : String
deriving DecidableEq

/-- Result of compact. -/
structure CompactionResult where
  compactedMessages : List ChatMessage
  boundaryIndex : Nat
  compactionEvent : CompactionEventInfo
deriving DecidableEq

/-- The external model collaborator behind generateSummary: from the
messages to compact, the carried-forward previous summary, the original
task and the round number to the summary text; none models a failed model
invocation (the thrown error of the source). -/
def GenOracle : Type :=
  List ChatMessage → Option String → String → Nat → Option String

/-- The round of the session's last persisted compaction event, or 0 when
none exists (the lastEvent round read of compact, with its null
fallback). -/
def lastRoundOf (sessionId : String) (db : DB) : Nat :=
  match getLastCompactionEvent sessionId db with
  | some e => e.round
  | none => 0

/-- compact: estimate, select; no-op result (round 0, unchanged messages,
equal before and after token counts) when nothing is selected; otherwise
read the last persisted round, generate the summary (propagating a
generator failure as none), and assemble the compacted list as the kept
system message, the summary, then the rest of the kept messages. -/
def compact (gen : GenOracle) (messages : List ChatMessage) (sessionId : String)
    (config : CompactionConfig) (db : DB) : Option CompactionResult :=
  let tokensBefore := estimateMessagesTokens messages
  let selection := selectMessagesToCompact messages config.recentMessagesToKeep
  if selection.messagesToCompact.length = 0 then
    some
      { compactedMessages := messages
        boundaryIndex := 0
        compactionEvent :=
          { round := 0
            tokensBefore := tokensBefore
            tokensAfter := tokensBefore
            summaryContent := "" } }
  else
    let round := lastRoundOf sessionId db + 1
    match gen selection.messagesToCompact selection.previousSummary
        (extractOriginalTask messages) round with
    | none => none
    | some summaryContent =>
        let summaryMessage : ChatMessage :=
          ChatMessage.mk Role.assistant (MessageContent.str summaryContent)
        let compactedMessages :=
          selection.messagesToKeep.take 1 ++
            summaryMessage :: selection.messagesToKeep.drop 1
        some
          { compactedMessages := compactedMessages
            boundaryIndex := selection.boundaryIndex
            compactionEvent :=
              { round := round
                tokensBefore := tokensBefore
                tokensAfter := estimateMessagesTokens compactedMessages
                summaryContent := summaryContent } }

/-- safeCompact: run compact under a try/catch.  A generator failure is
caught and the original list returned with nothing persisted.  A round-0
result skips persistence.  Otherwise the in-memory boundary index is
checked against the active-message list (out of range throws, which the
catch turns into the unchanged original state) and translated to the
sequence number of the row at that position, and performCompaction commits
atomically (a transaction failure is likewise caught, leaving the original
state). -/
def safeCompact (gen : GenOracle) (crash : Bool) (messages : List ChatMessage)
    (sessionId : String) (config : CompactionConfig) (db : DB) :
    List ChatMessage × DB :=
  match compact gen messages sessionId config db with
  | none => (messages, db)
  | some result =>
      if result.compactionEvent.round = 0 then
        (result.compactedMessages, db)
      else
        let activeMessages := getActiveMessages sessionId db
        if h : result.boundaryIndex < activeMessages.length then
          let boundarySequence := (activeMessages.get ⟨result.boundaryIndex, h⟩).sequence
          match performCompaction crash sessionId boundarySequence
              { role := Role.assistant
                content := result.compactionEvent.summaryContent
                tokenCount := estimateTokens result.compactionEvent.summaryContent }
              { round := result.compactionEvent.round
                tokensBefore := result.compactionEvent.tokensBefore
                tokensAfter := result.compactionEvent.tokensAfter } db with
          | none => (messages, db)
          | some db2 => (result.compactedMessages, db2)
        else
          (messages, db)

/-- A content-length-increasing edit on one content part: same shape, each
carried string at least as long as before. -/
def partGrows : ContentPart → ContentPart → Prop
  | ContentPart.text t, ContentPart.text u => t.length ≤ u.length
  | ContentPart.toolCall n a, ContentPart.toolCall n2 a2 =>
      n.length ≤ n2.length ∧ a.length ≤ a2.length
  | ContentPart.toolResult n o, ContentPart.toolResult n2 o2 =>
      n.length ≤ n2.length ∧ o.length ≤ o2.length
  | _, _ => False

/-- A content-length-increasing edit on message content: a string replaced
by one at least as long, or a parts list replaced pointwise by grown
parts. -/
def contentGrows : MessageContent → MessageContent → Prop
  | MessageContent.str s, MessageContent.str t => s.length ≤ t.length
  | MessageContent.parts ps, MessageContent.parts qs => List.Forall₂ partGrows ps qs
  | _, _ => False

theorem nat_ceil_div_four (l : ℕ) : ⌈(l : ℚ) / 4⌉₊ = (l + 3) / 4 := by
  rcases Nat.eq_zero_or_pos l with h | h
  · subst h; norm_num
  · have hn : (l + 3) / 4 ≠ 0 := by omega
    rw [Nat.ceil_eq_iff hn]
    constructor
    · rw [lt_div_iff₀ (by norm_num : (0:ℚ) < 4)]
      have h3 : ((l + 3) / 4 - 1) * 4 < l := by omega
      exact_mod_cast h3
    · rw [div_le_iff₀ (by norm_num : (0:ℚ) < 4)]
      have h4 : l ≤ ((l + 3) / 4) * 4 := by omega
      exact_mod_cast h4

theorem estimateTokens_mono {s t : String} (h : s.length ≤ t.length) :
    estimateTokens s ≤ estimateTokens t := by
  unfold estimateTokens
  exact Nat.div_le_div_right (by omega)

theorem estimatePart_mono {p q : ContentPart} (h : partGrows p q) :
    estimatePart p ≤ estimatePart q := by
  cases p <;> cases q <;> simp only [partGrows, estimatePart] at h ⊢
  case text.text => exact estimateTokens_mono h
  case toolCall.toolCall =>
    exact Nat.add_le_add (estimateTokens_mono h.1) (estimateTokens_mono h.2)
  case toolResult.toolResult =>
    exact Nat.add_le_add (estimateTokens_mono h.1) (estimateTokens_mono h.2)

theorem sum_estimatePart_mono {ps qs : List ContentPart}
    (h : List.Forall₂ partGrows ps qs) :
    (ps.map estimatePart).sum ≤ (qs.map estimatePart).sum := by
  induction h with
  | nil => simp
  | cons hpq _ ih =>
      simp only [List.map_cons, List.sum_cons]
      exact Nat.add_le_add (estimatePart_mono hpq) ih

theorem estimateContent_mono {c d : MessageContent} (h : contentGrows c d) :
    estimateContent c ≤ estimateContent d := by
  cases c <;> cases d <;> simp only [contentGrows, estimateContent] at h ⊢
  case str.str => exact estimateTokens_mono h
  case parts.parts => exact sum_estimatePart_mono h

theorem sum_map_le_of_set {α : Type} (f : α → ℕ) :
    ∀ (l : List α) (i : ℕ) (a b : α), l.get? i = some a → f a ≤ f b →
      (l.map f).sum ≤ ((l.set i b).map f).sum
  | [], i, a, b, h, _ => by simp at h
  | x :: xs, 0, a, b, h, hf => by
      simp only [List.get?] at h
      cases h
      simp only [List.set, List.map_cons, List.sum_cons]
      omega
  | x :: xs, i + 1, a, b, h, hf => by
      simp only [List.get?] at h
      have ih := sum_map_le_of_set f xs i a b h hf
      simp only [List.set, List.map_cons, List.sum_cons]
      omega

/-- C9: the token estimate of a text is exactly the ceiling of its length
divided by four (a natural number, hence non-negative), and the
conversation estimate never decreases under a content-length-increasing
edit of any single message's content. -/
theorem claim9_estimate_ceiling_and_monotone :
    (∀ text : String, estimateTokens text = ⌈(text.length : ℚ) / 4⌉₊) ∧
    (∀ (messages : List ChatMessage) (i : ℕ) (m : ChatMessage) (c : MessageContent),
      messages.get? i = some m → contentGrows m.content c →
      estimateMessagesTokens messages ≤
        estimateMessagesTokens (messages.set i (ChatMessage.mk m.role c))) := by
  constructor
  · intro text
    rw [nat_ceil_div_four]
    rfl
  · intro messages i m c hm hg
    unfold estimateMessagesTokens
    exact sum_map_le_of_set _ messages i m (ChatMessage.mk m.role c) hm
      (Nat.add_le_add_left (estimateContent_mono hg) 2)

/-- Witness for C9 at a concrete input: lengthening a user message from
"hi" to "hello" does not decrease the conversation estimate. -/
theorem claim9_witness :
    [ChatMessage.mk Role.user (MessageContent.str "hi")].get? 0 =
        some (ChatMessage.mk Role.user (MessageContent.str "hi")) ∧
    contentGrows (MessageContent.str "hi") (MessageContent.str "hello") ∧
    estimateMessagesTokens [ChatMessage.mk Role.user (MessageContent.str "hi")] ≤
      estimateMessagesTokens
        ([ChatMessage.mk Role.user (MessageContent.str "hi")].set 0
          (ChatMessage.mk Role.user (MessageContent.str "hello"))) :=
  ⟨rfl, by simp only [contentGrows]; decide,
    claim9_estimate_ceiling_and_monotone.2
      [ChatMessage.mk Role.user (MessageContent.str "hi")] 0
      (ChatMessage.mk Role.user (MessageContent.str "hi"))
      (MessageContent.str "hello") rfl (by simp only [contentGrows]; decide)⟩

/-- C8: shouldCompact returns false whenever the message list is no longer
than keep-tail + 1, and otherwise returns true exactly when the
conversation estimate reaches the floor of (context size minus the three
reserves) times the trigger percentage; as a Lean function it is pure and
deterministic. -/
theorem claim8_shouldCompact_contract (config : CompactionConfig)
    (messages : List ChatMessage) :
    (messages.length ≤ config.recentMessagesToKeep + 1 →
      shouldCompact messages config = false) ∧
    (config.recentMessagesToKeep + 1 < messages.length →
      (shouldCompact messages config = true ↔
        (estimateMessagesTokens messages : Int) ≥
          ⌊((config.modelContextLimit - config.systemReserve - config.outputReserve
              - config.safetyBuffer : Int) : ℚ) * config.thresholdPercent⌋)) := by
  constructor
  · intro h
    simp [shouldCompact, h]
  · intro h
    rw [shouldCompact, if_neg (by omega)]
    simp [calculateThreshold, ge_iff_le]

/-- Witness for C8 at a concrete input: a single system message with the
default configuration is below the keep-tail bound, so no compaction. -/
theorem claim8_witness :
    [ChatMessage.mk Role.system (MessageContent.str "S")].length ≤
        (CompactionConfig.mk 128000 2000 4000 5000 (4 / 5 : ℚ) 10).recentMessagesToKeep + 1 ∧
    shouldCompact [ChatMessage.mk Role.system (MessageContent.str "S")]
        (CompactionConfig.mk 128000 2000 4000 5000 (4 / 5 : ℚ) 10) = false :=
  ⟨by decide,
    (claim8_shouldCompact_contract
      (CompactionConfig.mk 128000 2000 4000 5000 (4 / 5 : ℚ) 10)
      [ChatMessage.mk Role.system (MessageContent.str "S")]).1 (by decide)⟩

theorem walkBack_le (messages : List ChatMessage) : ∀ b : ℕ, walkBack messages b ≤ b
  | 0 => Nat.le_refl 0
  | 1 => Nat.le_refl 1
  | b + 2 => by
      unfold walkBack
      split
      · exact Nat.le_trans (walkBack_le messages (b + 1)) (by omega)
      · exact Nat.le_refl _

theorem walkBack_not_tool (messages : List ChatMessage) :
    ∀ b : ℕ, 2 ≤ walkBack messages b →
      roleAt messages (walkBack messages b) ≠ some Role.tool
  | 0 => by intro h; simp [walkBack] at h
  | 1 => by intro h; simp [walkBack] at h
  | b + 2 => by
      intro h2
      by_cases hc : roleAt messages (b + 2) = some Role.tool
      · rw [walkBack, if_pos hc] at h2 ⊢
        exact walkBack_not_tool messages (b + 1) h2
      · rw [walkBack, if_neg hc]
        exact hc

theorem select_short {messages : List ChatMessage} {keepLast : ℕ}
    (h : messages.length ≤ keepLast + 1) :
    selectMessagesToCompact messages keepLast =
      { messagesToCompact := []
        messagesToKeep := messages
        previousSummary := none
        boundaryIndex := 0 } := by
  unfold selectMessagesToCompact
  rw [if_pos h]

theorem select_noop {messages : List ChatMessage} {keepLast : ℕ}
    (h : ¬ messages.length ≤ keepLast + 1)
    (hb : walkBack messages (messages.length - keepLast) ≤
      (if (detectPriorSummary messages).isSome then 2 else 1)) :
    selectMessagesToCompact messages keepLast =
      { messagesToCompact := []
        messagesToKeep := messages
        previousSummary := detectPriorSummary messages
        boundaryIndex := 0 } := by
  simp only [selectMessagesToCompact]
  rw [if_neg h, if_pos hb]

theorem select_main {messages : List ChatMessage} {keepLast b s : ℕ}
    (h : ¬ messages.length ≤ keepLast + 1)
    (hbdef : b = walkBack messages (messages.length - keepLast))
    (hsdef : s = if (detectPriorSummary messages).isSome then 2 else 1)
    (hb : s < b) :
    selectMessagesToCompact messages keepLast =
      { messagesToCompact := (messages.drop s).take (b - s)
        messagesToKeep := messages.take 1 ++ messages.drop b
        previousSummary := detectPriorSummary messages
        boundaryIndex := b } := by
  subst hbdef
  subst hsdef
  simp only [selectMessagesToCompact]
  rw [if_neg h, if_neg (by omega)]

theorem select_nonempty_inv {messages : List ChatMessage} {keepLast : ℕ}
    (h : (selectMessagesToCompact messages keepLast).messagesToCompact ≠ []) :
    ¬ messages.length ≤ keepLast + 1 ∧
    (if (detectPriorSummary messages).isSome then 2 else 1) <
      walkBack messages (messages.length - keepLast) := by
  by_cases hlen : messages.length ≤ keepLast + 1
  · rw [select_short hlen] at h
    exact absurd rfl h
  · refine ⟨hlen, ?_⟩
    by_cases hb : walkBack messages (messages.length - keepLast) ≤
        (if (detectPriorSummary messages).isSome then 2 else 1)
    · rw [select_noop hlen hb] at h
      exact absurd rfl h
    · omega

/-- C6 (amended): whenever selection actually selects something to
summarize, the first kept message after the system message is never of
role tool; on the early no-op paths the returned messagesToKeep is the
input list verbatim and may well have a tool message at index 1. -/
theorem claim6_first_kept_not_tool (messages : List ChatMessage) (keepLast : ℕ)
    (h : (selectMessagesToCompact messages keepLast).messagesToCompact ≠ []) :
    roleAt (selectMessagesToCompact messages keepLast).messagesToKeep 1 ≠
      some Role.tool := by
  obtain ⟨hlen, hb⟩ := select_nonempty_inv h
  rw [select_main hlen rfl rfl hb]
  have hlen2 : 2 ≤ messages.length := by omega
  have htake : (messages.take 1).length = 1 := by
    rw [List.length_take]; omega
  unfold roleAt
  rw [List.get?_append_right (by omega), htake, List.get?_drop]
  have hs1 : 1 ≤ (if (detectPriorSummary messages).isSome then 2 else 1) := by
    split <;> omega
  have h2b : 2 ≤ walkBack messages (messages.length - keepLast) := by omega
  have := walkBack_not_tool messages (messages.length - keepLast) h2b
  unfold roleAt at this
  simpa using this

/-- C6 as literally stated is false: on the short-list no-op path the
selector returns the input list as messagesToKeep, so a tool message at
index 1 survives as the first kept message after the system message. -/
theorem claim6_counterexample :
    1 < (selectMessagesToCompact
          [ChatMessage.mk Role.system (MessageContent.str "S"),
           ChatMessage.mk Role.tool (MessageContent.str "T")] 10).messagesToKeep.length ∧
    roleAt
      (selectMessagesToCompact
        [ChatMessage.mk Role.system (MessageContent.str "S"),
         ChatMessage.mk Role.tool (MessageContent.str "T")] 10).messagesToKeep 1 =
      some Role.tool := by decide

/-- Witness for the amended C6 on a concrete compacting run. -/
theorem claim6_witness :
    (selectMessagesToCompact
      [ChatMessage.mk Role.system (MessageContent.str "S"),
       ChatMessage.mk Role.user (MessageContent.str "A"),
       ChatMessage.mk Role.user (MessageContent.str "B"),
       ChatMessage.mk Role.user (MessageContent.str "C")] 1).messagesToCompact ≠ [] ∧
    roleAt
      (selectMessagesToCompact
        [ChatMessage.mk Role.system (MessageContent.str "S"),
         ChatMessage.mk Role.user (MessageContent.str "A"),
         ChatMessage.mk Role.user (MessageContent.str "B"),
         ChatMessage.mk Role.user (MessageContent.str "C")] 1).messagesToKeep 1 ≠
      some Role.tool :=
  ⟨by decide,
    claim6_first_kept_not_tool
      [ChatMessage.mk Role.system (MessageContent.str "S"),
       ChatMessage.mk Role.user (MessageContent.str "A"),
       ChatMessage.mk Role.user (MessageContent.str "B"),
       ChatMessage.mk Role.user (MessageContent.str "C")] 1 (by decide)⟩

/-- C7 (amended): under the additional hypothesis that the list is long
enough to escape the early no-op return, a marker-prefixed assistant
message at index 1 is reported verbatim as previousSummary and the span to
summarize starts at index 2, excluding it. -/
theorem claim7_prior_summary_detected (messages : List ChatMessage) (keepLast : ℕ)
    (s : String)
    (hlen : keepLast + 1 < messages.length)
    (hm : messages.get? 1 = some (ChatMessage.mk Role.assistant (MessageContent.str s)))
    (hpre : strStartsWith s summaryMarker = true) :
    (selectMessagesToCompact messages keepLast).previousSummary = some s ∧
    ∃ n, (selectMessagesToCompact messages keepLast).messagesToCompact =
      (messages.drop 2).take n := by
  have hm2 : messages[1]? = some (ChatMessage.mk Role.assistant (MessageContent.str s)) := by
    rw [← List.get?_eq_getElem?]
    exact hm
  have hdet : detectPriorSummary messages = some s := by
    simp [detectPriorSummary, hm2, hpre]
  have hlen' : ¬ messages.length ≤ keepLast + 1 := by omega
  by_cases hb : walkBack messages (messages.length - keepLast) ≤ 2
  · rw [select_noop hlen' (by simpa [hdet] using hb)]
    exact ⟨by simp [hdet], ⟨0, by simp⟩⟩
  · push_neg at hb
    rw [select_main hlen' rfl (by simp [hdet]) hb]
    exact ⟨by simp [hdet],
      ⟨walkBack messages (messages.length - keepLast) - 2, by simp⟩⟩

/-- C7 as literally stated is false: on the short-list no-op path the
selector returns previousSummary = none even when the message at index 1
is a marker-prefixed assistant summary. -/
theorem claim7_counterexample :
    [ChatMessage.mk Role.system (MessageContent.str "S"),
     ChatMessage.mk Role.assistant (MessageContent.str "## Session Summary x")].get? 1 =
      some (ChatMessage.mk Role.assistant (MessageContent.str "## Session Summary x")) ∧
    strStartsWith "## Session Summary x" summaryMarker = true ∧
    (selectMessagesToCompact
      [ChatMessage.mk Role.system (MessageContent.str "S"),
       ChatMessage.mk Role.assistant (MessageContent.str "## Session Summary x")]
      10).previousSummary = none := by decide

/-- Witness for the amended C7 on a concrete run with a prior summary. -/
theorem claim7_witness :
    1 + 1 <
      ([ChatMessage.mk Role.system (MessageContent.str "S"),
        ChatMessage.mk Role.assistant
          (MessageContent.str "## Session Summary (Compaction Round 1)"),
        ChatMessage.mk Role.user (MessageContent.str "A"),
        ChatMessage.mk Role.user (MessageContent.str "B")] : List ChatMessage).length ∧
    ((selectMessagesToCompact
        [ChatMessage.mk Role.system (MessageContent.str "S"),
         ChatMessage.mk Role.assistant
           (MessageContent.str "## Session Summary (Compaction Round 1)"),
         ChatMessage.mk Role.user (MessageContent.str "A"),
         ChatMessage.mk Role.user (MessageContent.str "B")] 1).previousSummary =
      some "## Session Summary (Compaction Round 1)" ∧
    ∃ n, (selectMessagesToCompact
        [ChatMessage.mk Role.system (MessageContent.str "S"),
         ChatMessage.mk Role.assistant
           (MessageContent.str "## Session Summary (Compaction Round 1)"),
         ChatMessage.mk Role.user (MessageContent.str "A"),
         ChatMessage.mk Role.user (MessageContent.str "B")] 1).messagesToCompact =
      (([ChatMessage.mk Role.system (MessageContent.str "S"),
         ChatMessage.mk Role.assistant
           (MessageContent.str "## Session Summary (Compaction Round 1)"),
         ChatMessage.mk Role.user (MessageContent.str "A"),
         ChatMessage.mk Role.user (MessageContent.str "B")] : List ChatMessage).drop 2).take n) :=
  ⟨by decide,
    claim7_prior_summary_detected _ 1 "## Session Summary (Compaction Round 1)"
      (by decide) (by decide) (by decide)⟩

/-- C3: the claim is right about the intended round-trip convention and the
code breaks it.  The heading the generator prompt mandates carries three
hash marks while the selector tests for the two-hash marker, so the
mandated heading does not start with the marker and a summary formatted
exactly per the template at index 1 is not detected as a prior summary. -/
theorem claim3_marker_roundtrip_broken :
    strStartsWith (mandatedSummaryHeading 1) summaryMarker = false ∧
    detectPriorSummary
      [ChatMessage.mk Role.system (MessageContent.str "S"),
       ChatMessage.mk Role.assistant (MessageContent.str (mandatedSummaryHeading 1)),
       ChatMessage.mk Role.user (MessageContent.str "U"),
       ChatMessage.mk Role.user (MessageContent.str "U"),
       ChatMessage.mk Role.user (MessageContent.str "U")] = none ∧
    (selectMessagesToCompact
      [ChatMessage.mk Role.system (MessageContent.str "S"),
       ChatMessage.mk Role.assistant (MessageContent.str (mandatedSummaryHeading 1)),
       ChatMessage.mk Role.user (MessageContent.str "U"),
       ChatMessage.mk Role.user (MessageContent.str "U"),
       ChatMessage.mk Role.user (MessageContent.str "U")] 1).previousSummary = none := by
  decide

/-- C10: selection loses no message.  When something is selected the input
list is exactly the system head, the detected prior summary if any, the
span to summarize and the kept tail; when nothing is selected the kept
list is the input verbatim. -/
theorem claim10_selection_partition (messages : List ChatMessage) (keepLast : ℕ) :
    ((selectMessagesToCompact messages keepLast).messagesToCompact ≠ [] →
      messages =
        messages.take 1 ++
          (if (detectPriorSummary messages).isSome then (messages.drop 1).take 1 else []) ++
          (selectMessagesToCompact messages keepLast).messagesToCompact ++
          (selectMessagesToCompact messages keepLast).messagesToKeep.drop 1) ∧
    ((selectMessagesToCompact messages keepLast).messagesToCompact = [] →
      (selectMessagesToCompact messages keepLast).messagesToKeep = messages) := by
  constructor
  · intro h
    obtain ⟨hlen, hb⟩ := select_nonempty_inv h
    have hlen2 : 2 ≤ messages.length := by omega
    have htake : (messages.take 1).length = 1 := by
      rw [List.length_take]; omega
    have hdrop1 := List.drop_left (messages.take 1)
      (messages.drop (walkBack messages (messages.length - keepLast)))
    rw [htake] at hdrop1
    rcases hdet : detectPriorSummary messages with _ | s0
    · have hb1 : (1 : ℕ) < walkBack messages (messages.length - keepLast) := by
        simpa [hdet] using hb
      rw [select_main hlen rfl (by simp [hdet]) hb1, hdrop1, if_neg (by simp [hdet])]
      have h2 : messages.take (walkBack messages (messages.length - keepLast)) =
          messages.take 1 ++
            (messages.drop 1).take (walkBack messages (messages.length - keepLast) - 1) := by
        conv_lhs =>
          rw [show walkBack messages (messages.length - keepLast) =
            1 + (walkBack messages (messages.length - keepLast) - 1) from by omega]
        rw [List.take_add]
      calc messages
          = messages.take (walkBack messages (messages.length - keepLast)) ++
              messages.drop (walkBack messages (messages.length - keepLast)) :=
            (List.take_append_drop _ messages).symm
        _ = _ := by rw [h2]; simp [List.append_assoc]
    · have hb2 : (2 : ℕ) < walkBack messages (messages.length - keepLast) := by
        simpa [hdet] using hb
      rw [select_main hlen rfl (by simp [hdet]) hb2, hdrop1, if_pos (by simp [hdet])]
      have h1 : messages.take 2 = messages.take 1 ++ (messages.drop 1).take 1 := by
        rw [show (2 : ℕ) = 1 + 1 from rfl, List.take_add]
      have h2 : messages.take (walkBack messages (messages.length - keepLast)) =
          messages.take 2 ++
            (messages.drop 2).take (walkBack messages (messages.length - keepLast) - 2) := by
        conv_lhs =>
          rw [show walkBack messages (messages.length - keepLast) =
            2 + (walkBack messages (messages.length - keepLast) - 2) from by omega]
        rw [List.take_add]
      calc messages
          = messages.take (walkBack messages (messages.length - keepLast)) ++
              messages.drop (walkBack messages (messages.length - keepLast)) :=
            (List.take_append_drop _ messages).symm
        _ = _ := by rw [h2, h1]
  · intro h
    by_cases hlen : messages.length ≤ keepLast + 1
    · rw [select_short hlen]
    · by_cases hb : walkBack messages (messages.length - keepLast) ≤
          (if (detectPriorSummary messages).isSome then 2 else 1)
      · rw [select_noop hlen hb]
      · push_neg at hb
        exfalso
        rw [select_main (by omega) rfl rfl hb] at h
        have hble : walkBack messages (messages.length - keepLast) ≤ messages.length :=
          le_trans (walkBack_le _ _) (by omega)
        have hlength := congrArg List.length h
        rw [List.length_take, List.length_drop, List.length_nil] at hlength
        have hs2 : (if (detectPriorSummary messages).isSome then 2 else 1) ≤ 2 := by
          split <;> omega
        omega

/-- Witness for C10 on a concrete compacting run. -/
theorem claim10_witness :
    (selectMessagesToCompact
      [ChatMessage.mk Role.system (MessageContent.str "S"),
       ChatMessage.mk Role.user (MessageContent.str "A"),
       ChatMessage.mk Role.user (MessageContent.str "B"),
       ChatMessage.mk Role.user (MessageContent.str "C")] 1).messagesToCompact ≠ [] ∧
    [ChatMessage.mk Role.system (MessageContent.str "S"),
     ChatMessage.mk Role.user (MessageContent.str "A"),
     ChatMessage.mk Role.user (MessageContent.str "B"),
     ChatMessage.mk Role.user (MessageContent.str "C")] =
      ([ChatMessage.mk Role.system (MessageContent.str "S"),
        ChatMessage.mk Role.user (MessageContent.str "A"),
        ChatMessage.mk Role.user (MessageContent.str "B"),
        ChatMessage.mk Role.user (MessageContent.str "C")] : List ChatMessage).take 1 ++
        (if (detectPriorSummary
              [ChatMessage.mk Role.system (MessageContent.str "S"),
               ChatMessage.mk Role.user (MessageContent.str "A"),
               ChatMessage.mk Role.user (MessageContent.str "B"),
               ChatMessage.mk Role.user (MessageContent.str "C")]).isSome then
          (([ChatMessage.mk Role.system (MessageContent.str "S"),
             ChatMessage.mk Role.user (MessageContent.str "A"),
             ChatMessage.mk Role.user (MessageContent.str "B"),
             ChatMessage.mk Role.user (MessageContent.str "C")] : List ChatMessage).drop 1).take 1
        else []) ++
        (selectMessagesToCompact
          [ChatMessage.mk Role.system (MessageContent.str "S"),
           ChatMessage.mk Role.user (MessageContent.str "A"),
           ChatMessage.mk Role.user (MessageContent.str "B"),
           ChatMessage.mk Role.user (MessageContent.str "C")] 1).messagesToCompact ++
        (selectMessagesToCompact
          [ChatMessage.mk Role.system (MessageContent.str "S"),
           ChatMessage.mk Role.user (MessageContent.str "A"),
           ChatMessage.mk Role.user (MessageContent.str "B"),
           ChatMessage.mk Role.user (MessageContent.str "C")] 1).messagesToKeep.drop 1 :=
  ⟨by decide,
    (claim10_selection_partition
      [ChatMessage.mk Role.system (MessageContent.str "S"),
       ChatMessage.mk Role.user (MessageContent.str "A"),
       ChatMessage.mk Role.user (MessageContent.str "B"),
       ChatMessage.mk Role.user (MessageContent.str "C")] 1).1 (by decide)⟩

theorem compact_noop {gen : GenOracle} {messages : List ChatMessage}
    {sessionId : String} {config : CompactionConfig} {db : DB}
    (hc : (selectMessagesToCompact messages config.recentMessagesToKeep).messagesToCompact = []) :
    compact gen messages sessionId config db =
      some
        { compactedMessages := messages
          boundaryIndex := 0
          compactionEvent :=
            { round := 0
              tokensBefore := estimateMessagesTokens messages
              tokensAfter := estimateMessagesTokens messages
              summaryContent := "" } } := by
  simp only [compact]
  rw [if_pos (by simp [hc])]

theorem compact_genfail {gen : GenOracle} {messages : List ChatMessage}
    {sessionId : String} {config : CompactionConfig} {db : DB}
    (hc : (selectMessagesToCompact messages config.recentMessagesToKeep).messagesToCompact ≠ [])
    (hg : gen (selectMessagesToCompact messages config.recentMessagesToKeep).messagesToCompact
        (selectMessagesToCompact messages config.recentMessagesToKeep).previousSummary
        (extractOriginalTask messages) (lastRoundOf sessionId db + 1) = none) :
    compact gen messages sessionId config db = none := by
  simp only [compact]
  rw [if_neg (by simp [List.length_eq_zero, hc]), hg]

theorem compact_success {gen : GenOracle} {messages : List ChatMessage}
    {sessionId : String} {config : CompactionConfig} {db : DB} {s : String}
    (hc : (selectMessagesToCompact messages config.recentMessagesToKeep).messagesToCompact ≠ [])
    (hg : gen (selectMessagesToCompact messages config.recentMessagesToKeep).messagesToCompact
        (selectMessagesToCompact messages config.recentMessagesToKeep).previousSummary
        (extractOriginalTask messages) (lastRoundOf sessionId db + 1) = some s) :
    compact gen messages sessionId config db =
      some
        { compactedMessages :=
            (selectMessagesToCompact messages config.recentMessagesToKeep).messagesToKeep.take 1 ++
              ChatMessage.mk Role.assistant (MessageContent.str s) ::
                (selectMessagesToCompact messages config.recentMessagesToKeep).messagesToKeep.drop 1
          boundaryIndex :=
            (selectMessagesToCompact messages config.recentMessagesToKeep).boundaryIndex
          compactionEvent :=
            { round := lastRoundOf sessionId db + 1
              tokensBefore := estimateMessagesTokens messages
              tokensAfter :=
                estimateMessagesTokens
                  ((selectMessagesToCompact messages config.recentMessagesToKeep).messagesToKeep.take 1 ++
                    ChatMessage.mk Role.assistant (MessageContent.str s) ::
                      (selectMessagesToCompact messages config.recentMessagesToKeep).messagesToKeep.drop 1)
              summaryContent := s } } := by
  simp only [compact]
  rw [if_neg (by simp [List.length_eq_zero, hc]), hg]

theorem keep_take_one {messages : List ChatMessage} {keepLast : ℕ}
    (h : (selectMessagesToCompact messages keepLast).messagesToCompact ≠ []) :
    (selectMessagesToCompact messages keepLast).messagesToKeep.take 1 =
      messages.take 1 := by
  obtain ⟨hlen, hb⟩ := select_nonempty_inv h
  rw [select_main hlen rfl rfl hb]
  have h1 : (messages.take 1).length = 1 := by
    rw [List.length_take]; omega
  rw [List.take_append_eq_append_take, h1]
  simp [List.take_take]

theorem compact_round_zero_inv {gen : GenOracle} {messages : List ChatMessage}
    {sessionId : String} {config : CompactionConfig} {db : DB}
    {result : CompactionResult}
    (h : compact gen messages sessionId config db = some result)
    (h0 : result.compactionEvent.round = 0) :
    result.compactedMessages = messages := by
  by_cases hc : (selectMessagesToCompact messages config.recentMessagesToKeep).messagesToCompact = []
  · rw [compact_noop hc] at h
    injection h with h2
    rw [← h2]
  · cases hg : gen (selectMessagesToCompact messages config.recentMessagesToKeep).messagesToCompact
        (selectMessagesToCompact messages config.recentMessagesToKeep).previousSummary
        (extractOriginalTask messages) (lastRoundOf sessionId db + 1) with
    | none =>
        rw [compact_genfail hc hg] at h
        exact absurd h (by simp)
    | some s =>
        rw [compact_success hc hg] at h
        injection h with h2
        exfalso
        rw [← h2] at h0
        simp at h0

theorem safeCompact_of_none {gen : GenOracle} {crash : Bool}
    {messages : List ChatMessage} {sessionId : String} {config : CompactionConfig}
    {db : DB}
    (h : compact gen messages sessionId config db = none) :
    safeCompact gen crash messages sessionId config db = (messages, db) := by
  simp only [safeCompact, h]

theorem safeCompact_of_round_zero {gen : GenOracle} {crash : Bool}
    {messages : List ChatMessage} {sessionId : String} {config : CompactionConfig}
    {db : DB} {result : CompactionResult}
    (h : compact gen messages sessionId config db = some result)
    (h0 : result.compactionEvent.round = 0) :
    safeCompact gen crash messages sessionId config db =
      (result.compactedMessages, db) := by
  simp only [safeCompact, h]
  rw [if_pos h0]

/-- C2 is violated by the code: both retire operations mark every row of
the session with sequence below the boundary, with no exemption for the
sequence-1 system prompt.  At beforeSequence 2 the sequence-1 row comes out
retired (isCompacted = 1), and the repository's own integration test pins
this behavior (compacting before sequence 5 leaves only the tail and the
summary active). -/
theorem claim2_counterexample :
    ((markMessagesCompacted "s" 2
        (DB.mk [MessageRow.mk "s" 1 Role.system "P" 5 0] [])).messages.map
          MessageRow.isCompacted) = [1] ∧
    (∃ db2,
      performCompaction false "s" 2
          (SummaryPayload.mk Role.assistant "sum" 1)
          (CompactionMetrics.mk 1 10 5)
          (DB.mk [MessageRow.mk "s" 1 Role.system "P" 5 0] []) = some db2 ∧
      db2.messages.map MessageRow.isCompacted = [1, 0]) := by
  exact ⟨by decide, ⟨_, rfl, by decide⟩⟩

/-- C2 (amended): the retire operations set the isCompacted flag on exactly
the session's rows with sequence below the boundary.  An active sequence-1
row therefore stays active precisely when beforeSequence ≤ 1 or the row
belongs to another session; with beforeSequence > 1 on its own session it
is retired, contrary to the spec's stated invariant. -/
theorem claim2_sequence_one_retirement (db : DB) (sessionId : String)
    (beforeSequence : ℕ) (i : ℕ) (m : MessageRow)
    (payload : SummaryPayload) (metrics : CompactionMetrics)
    (hm : db.messages.get? i = some m)
    (h1 : m.sequence = 1) (h0 : m.isCompacted = 0) :
    (((markMessagesCompacted sessionId beforeSequence db).messages.get? i).map
        MessageRow.isCompacted =
      some (if m.sessionId = sessionId ∧ 1 < beforeSequence then 1 else 0)) ∧
    (∀ db2,
      performCompaction false sessionId beforeSequence payload metrics db = some db2 →
      (db2.messages.get? i).map MessageRow.isCompacted =
        some (if m.sessionId = sessionId ∧ 1 < beforeSequence then 1 else 0)) := by
  have hmark : (markMessagesCompacted sessionId beforeSequence db).messages.get? i =
      some (retireRow sessionId beforeSequence m) := by
    simp only [markMessagesCompacted]
    rw [List.get?_map, hm]
    rfl
  constructor
  · rw [hmark]
    by_cases hcond : m.sessionId = sessionId ∧ 1 < beforeSequence
    · have : retireRow sessionId beforeSequence m = { m with isCompacted := 1 } := by
        unfold retireRow
        rw [if_pos ⟨hcond.1, by omega, h0⟩]
      rw [this, if_pos hcond]
      rfl
    · have : retireRow sessionId beforeSequence m = m := by
        unfold retireRow
        rw [if_neg (by intro hfull; exact hcond ⟨hfull.1, by omega⟩)]
      rw [this, if_neg hcond]
      simp [h0]
  · intro db2 hdb2
    have hdb2' : db2.messages =
        db.messages.map (retireRowTx sessionId beforeSequence) ++
          [MessageRow.mk sessionId
            (lastSequence sessionId
              (db.messages.map (retireRowTx sessionId beforeSequence)) + 1)
            Role.assistant payload.content payload.tokenCount 0] := by
      have : performCompaction false sessionId beforeSequence payload metrics db =
          some { messages := db.messages.map (retireRowTx sessionId beforeSequence) ++
                   [MessageRow.mk sessionId
                     (lastSequence sessionId
                       (db.messages.map (retireRowTx sessionId beforeSequence)) + 1)
                     Role.assistant payload.content payload.tokenCount 0]
                 events := db.events ++
                   [CompactionEventRow.mk sessionId metrics.round metrics.tokensBefore
                     metrics.tokensAfter payload.content] } := rfl
      rw [this] at hdb2
      injection hdb2 with h2
      rw [← h2]
    obtain ⟨hi, -⟩ := List.get?_eq_some.mp hm
    rw [hdb2', List.get?_append (by simpa using hi), List.get?_map, hm]
    simp only [Option.map_some']
    by_cases hcond : m.sessionId = sessionId ∧ 1 < beforeSequence
    · have : retireRowTx sessionId beforeSequence m = { m with isCompacted := 1 } := by
        unfold retireRowTx
        rw [if_pos ⟨hcond.1, by omega⟩]
      rw [this, if_pos hcond]
    · have : retireRowTx sessionId beforeSequence m = m := by
        unfold retireRowTx
        rw [if_neg (by intro hfull; exact hcond ⟨hfull.1, by omega⟩)]
      rw [this, if_neg hcond]
      simp [h0]

/-- Witness for the amended C2: with beforeSequence 1 the sequence-1 row
stays active under both operations. -/
theorem claim2_witness :
    (DB.mk [MessageRow.mk "s" 1 Role.system "P" 5 0] []).messages.get? 0 =
        some (MessageRow.mk "s" 1 Role.system "P" 5 0) ∧
    (((markMessagesCompacted "s" 1
        (DB.mk [MessageRow.mk "s" 1 Role.system "P" 5 0] [])).messages.get? 0).map
          MessageRow.isCompacted =
      some (if (MessageRow.mk "s" 1 Role.system "P" 5 0).sessionId = "s" ∧ 1 < 1 then 1 else 0)) ∧
    (∀ db2,
      performCompaction false "s" 1 (SummaryPayload.mk Role.assistant "sum" 1)
          (CompactionMetrics.mk 1 10 5)
          (DB.mk [MessageRow.mk "s" 1 Role.system "P" 5 0] []) = some db2 →
      (db2.messages.get? 0).map MessageRow.isCompacted =
        some (if (MessageRow.mk "s" 1 Role.system "P" 5 0).sessionId = "s" ∧ 1 < 1 then 1 else 0)) :=
  ⟨rfl,
    (claim2_sequence_one_retirement
      (DB.mk [MessageRow.mk "s" 1 Role.system "P" 5 0] []) "s" 1 0
      (MessageRow.mk "s" 1 Role.system "P" 5 0)
      (SummaryPayload.mk Role.assistant "sum" 1) (CompactionMetrics.mk 1 10 5)
      rfl rfl rfl).1,
    (claim2_sequence_one_retirement
      (DB.mk [MessageRow.mk "s" 1 Role.system "P" 5 0] []) "s" 1 0
      (MessageRow.mk "s" 1 Role.system "P" 5 0)
      (SummaryPayload.mk Role.assistant "sum" 1) (CompactionMetrics.mk 1 10 5)
      rfl rfl rfl).2⟩

/-- C5: compact returns either the no-op result (round 0, the input list
unchanged, tokensBefore = tokensAfter) when the selector yields nothing, or
a completed result whose round is 1 + the round of the most recently
persisted compaction event (1 when none exists), whose message list is the
system head, the summary message, then the kept tail, and which carries the
boundary index used. -/
theorem claim5_compact_result_contract (gen : GenOracle) (messages : List ChatMessage)
    (sessionId : String) (config : CompactionConfig) (db : DB) :
    ((selectMessagesToCompact messages config.recentMessagesToKeep).messagesToCompact = [] →
      compact gen messages sessionId config db =
        some
          { compactedMessages := messages
            boundaryIndex := 0
            compactionEvent :=
              { round := 0
                tokensBefore := estimateMessagesTokens messages
                tokensAfter := estimateMessagesTokens messages
                summaryContent := "" } }) ∧
    (∀ s : String,
      (selectMessagesToCompact messages config.recentMessagesToKeep).messagesToCompact ≠ [] →
      gen (selectMessagesToCompact messages config.recentMessagesToKeep).messagesToCompact
          (selectMessagesToCompact messages config.recentMessagesToKeep).previousSummary
          (extractOriginalTask messages) (lastRoundOf sessionId db + 1) = some s →
      compact gen messages sessionId config db =
        some
          { compactedMessages :=
              messages.take 1 ++
                ChatMessage.mk Role.assistant (MessageContent.str s) ::
                  (selectMessagesToCompact messages config.recentMessagesToKeep).messagesToKeep.drop 1
            boundaryIndex :=
              (selectMessagesToCompact messages config.recentMessagesToKeep).boundaryIndex
            compactionEvent :=
              { round := lastRoundOf sessionId db + 1
                tokensBefore := estimateMessagesTokens messages
                tokensAfter :=
                  estimateMessagesTokens
                    (messages.take 1 ++
                      ChatMessage.mk Role.assistant (MessageContent.str s) ::
                        (selectMessagesToCompact messages config.recentMessagesToKeep).messagesToKeep.drop 1)
                summaryContent := s } }) := by
  constructor
  · exact compact_noop
  · intro s hne hg
    rw [compact_success hne hg, keep_take_one hne]

/-- Witness for C5 on a concrete completed compaction (round 1 on an empty
event table, list reassembled around the summary). -/
theorem claim5_witness :
    (selectMessagesToCompact
      [ChatMessage.mk Role.system (MessageContent.str "S"),
       ChatMessage.mk Role.user (MessageContent.str "A"),
       ChatMessage.mk Role.user (MessageContent.str "B"),
       ChatMessage.mk Role.user (MessageContent.str "C")]
      (CompactionConfig.mk 0 0 0 0 0 1).recentMessagesToKeep).messagesToCompact ≠ [] ∧
    compact (fun _ _ _ _ => some "SUM")
        [ChatMessage.mk Role.system (MessageContent.str "S"),
         ChatMessage.mk Role.user (MessageContent.str "A"),
         ChatMessage.mk Role.user (MessageContent.str "B"),
         ChatMessage.mk Role.user (MessageContent.str "C")]
        "s" (CompactionConfig.mk 0 0 0 0 0 1) (DB.mk [] []) =
      some
        { compactedMessages :=
            ([ChatMessage.mk Role.system (MessageContent.str "S"),
              ChatMessage.mk Role.user (MessageContent.str "A"),
              ChatMessage.mk Role.user (MessageContent.str "B"),
              ChatMessage.mk Role.user (MessageContent.str "C")] : List ChatMessage).take 1 ++
              ChatMessage.mk Role.assistant (MessageContent.str "SUM") ::
                (selectMessagesToCompact
                  [ChatMessage.mk Role.system (MessageContent.str "S"),
                   ChatMessage.mk Role.user (MessageContent.str "A"),
                   ChatMessage.mk Role.user (MessageContent.str "B"),
                   ChatMessage.mk Role.user (MessageContent.str "C")]
                  (CompactionConfig.mk 0 0 0 0 0 1).recentMessagesToKeep).messagesToKeep.drop 1
          boundaryIndex :=
            (selectMessagesToCompact
              [ChatMessage.mk Role.system (MessageContent.str "S"),
               ChatMessage.mk Role.user (MessageContent.str "A"),
               ChatMessage.mk Role.user (MessageContent.str "B"),
               ChatMessage.mk Role.user (MessageContent.str "C")]
              (CompactionConfig.mk 0 0 0 0 0 1).recentMessagesToKeep).boundaryIndex
          compactionEvent :=
            { round := lastRoundOf "s" (DB.mk [] []) + 1
              tokensBefore :=
                estimateMessagesTokens
                  [ChatMessage.mk Role.system (MessageContent.str "S"),
                   ChatMessage.mk Role.user (MessageContent.str "A"),
                   ChatMessage.mk Role.user (MessageContent.str "B"),
                   ChatMessage.mk Role.user (MessageContent.str "C")]
              tokensAfter :=
                estimateMessagesTokens
                  (([ChatMessage.mk Role.system (MessageContent.str "S"),
                     ChatMessage.mk Role.user (MessageContent.str "A"),
                     ChatMessage.mk Role.user (MessageContent.str "B"),
                     ChatMessage.mk Role.user (MessageContent.str "C")] : List ChatMessage).take 1 ++
                    ChatMessage.mk Role.assistant (MessageContent.str "SUM") ::
                      (selectMessagesToCompact
                        [ChatMessage.mk Role.system (MessageContent.str "S"),
                         ChatMessage.mk Role.user (MessageContent.str "A"),
                         ChatMessage.mk Role.user (MessageContent.str "B"),
                         ChatMessage.mk Role.user (MessageContent.str "C")]
                        (CompactionConfig.mk 0 0 0 0 0 1).recentMessagesToKeep).messagesToKeep.drop 1)
              summaryContent := "SUM" } } :=
  ⟨by decide,
    (claim5_compact_result_contract (fun _ _ _ _ => some "SUM")
      [ChatMessage.mk Role.system (MessageContent.str "S"),
       ChatMessage.mk Role.user (MessageContent.str "A"),
       ChatMessage.mk Role.user (MessageContent.str "B"),
       ChatMessage.mk Role.user (MessageContent.str "C")]
      "s" (CompactionConfig.mk 0 0 0 0 0 1) (DB.mk [] [])).2 "SUM" (by decide) rfl⟩

/-- C1: on a committing run (non-zero round, sound transaction) safeCompact
persists as the boundary exactly the sequence number of the row occupying
the coordinator's in-memory boundary index in the active-message list, and
when that index is out of range for the active-message list it aborts: the
original list is returned and the database is unchanged (no compaction
event, no retired message, no inserted summary). -/
theorem claim1_boundary_translation (gen : GenOracle) (messages : List ChatMessage)
    (sessionId : String) (config : CompactionConfig) (db : DB)
    (result : CompactionResult)
    (hc : compact gen messages sessionId config db = some result)
    (hr : result.compactionEvent.round ≠ 0) :
    (∀ h : result.boundaryIndex < (getActiveMessages sessionId db).length,
      ∃ db2,
        performCompaction false sessionId
            ((getActiveMessages sessionId db).get ⟨result.boundaryIndex, h⟩).sequence
            (SummaryPayload.mk Role.assistant result.compactionEvent.summaryContent
              (estimateTokens result.compactionEvent.summaryContent))
            (CompactionMetrics.mk result.compactionEvent.round
              result.compactionEvent.tokensBefore result.compactionEvent.tokensAfter)
            db = some db2 ∧
        safeCompact gen false messages sessionId config db =
          (result.compactedMessages, db2)) ∧
    ((getActiveMessages sessionId db).length ≤ result.boundaryIndex →
      safeCompact gen false messages sessionId config db = (messages, db)) := by
  constructor
  · intro h
    refine ⟨_, rfl, ?_⟩
    simp only [safeCompact, hc]
    rw [if_neg hr, dif_pos h]
    rfl
  · intro hge
    simp only [safeCompact, hc]
    rw [if_neg hr, dif_neg (by omega)]

/-- Witness for C1 on a concrete committing run: the coordinator's boundary
index 2 (walked back over the tool message at index 3) is translated to the
sequence number 3 of the third active row, and that is the boundary
performCompaction commits. -/
theorem claim1_witness :
    ∃ db2,
      performCompaction false "s" 3
          (SummaryPayload.mk Role.assistant "SUMMARY" (estimateTokens "SUMMARY"))
          (CompactionMetrics.mk 1 10 12)
          (DB.mk
            [MessageRow.mk "s" 1 Role.system "" 1 0,
             MessageRow.mk "s" 2 Role.user "" 1 0,
             MessageRow.mk "s" 3 Role.assistant "" 1 0,
             MessageRow.mk "s" 4 Role.tool "" 1 0,
             MessageRow.mk "s" 5 Role.user "" 1 0] []) = some db2 ∧
      safeCompact (fun _ _ _ _ => some "SUMMARY") false
          [ChatMessage.mk Role.system (MessageContent.str ""),
           ChatMessage.mk Role.user (MessageContent.str ""),
           ChatMessage.mk Role.assistant (MessageContent.str ""),
           ChatMessage.mk Role.tool (MessageContent.str ""),
           ChatMessage.mk Role.user (MessageContent.str "")]
          "s" (CompactionConfig.mk 0 0 0 0 0 2)
          (DB.mk
            [MessageRow.mk "s" 1 Role.system "" 1 0,
             MessageRow.mk "s" 2 Role.user "" 1 0,
             MessageRow.mk "s" 3 Role.assistant "" 1 0,
             MessageRow.mk "s" 4 Role.tool "" 1 0,
             MessageRow.mk "s" 5 Role.user "" 1 0] []) =
        ([ChatMessage.mk Role.system (MessageContent.str ""),
          ChatMessage.mk Role.assistant (MessageContent.str "SUMMARY"),
          ChatMessage.mk Role.assistant (MessageContent.str ""),
          ChatMessage.mk Role.tool (MessageContent.str ""),
          ChatMessage.mk Role.user (MessageContent.str "")], db2) :=
  (claim1_boundary_translation (fun _ _ _ _ => some "SUMMARY")
    [ChatMessage.mk Role.system (MessageContent.str ""),
     ChatMessage.mk Role.user (MessageContent.str ""),
     ChatMessage.mk Role.assistant (MessageContent.str ""),
     ChatMessage.mk Role.tool (MessageContent.str ""),
     ChatMessage.mk Role.user (MessageContent.str "")]
    "s" (CompactionConfig.mk 0 0 0 0 0 2)
    (DB.mk
      [MessageRow.mk "s" 1 Role.system "" 1 0,
       MessageRow.mk "s" 2 Role.user "" 1 0,
       MessageRow.mk "s" 3 Role.assistant "" 1 0,
       MessageRow.mk "s" 4 Role.tool "" 1 0,
       MessageRow.mk "s" 5 Role.user "" 1 0] [])
    (CompactionResult.mk
      [ChatMessage.mk Role.system (MessageContent.str ""),
       ChatMessage.mk Role.assistant (MessageContent.str "SUMMARY"),
       ChatMessage.mk Role.assistant (MessageContent.str ""),
       ChatMessage.mk Role.tool (MessageContent.str ""),
       ChatMessage.mk Role.user (MessageContent.str "")]
      2 (CompactionEventInfo.mk 1 10 12 "SUMMARY"))
    (by decide) (by decide)).1 (by decide)

/-- C4: a failing model call, a transaction failure injected between the
retire step and the summary-insert step, and a failing boundary translation
all abandon the compaction attempt atomically: the original message list is
returned and the persisted state is identical to before the call. -/
theorem claim4_failure_atomicity (gen : GenOracle) (crash : Bool)
    (messages : List ChatMessage) (sessionId : String) (config : CompactionConfig)
    (db : DB) :
    ((∀ a b c d, gen a b c d = none) →
      safeCompact gen crash messages sessionId config db = (messages, db)) ∧
    (safeCompact gen true messages sessionId config db = (messages, db)) ∧
    (∀ result : CompactionResult,
      compact gen messages sessionId config db = some result →
      result.compactionEvent.round ≠ 0 →
      (getActiveMessages sessionId db).length ≤ result.boundaryIndex →
      safeCompact gen crash messages sessionId config db = (messages, db)) := by
  refine ⟨?_, ?_, ?_⟩
  · intro hg
    by_cases hsel : (selectMessagesToCompact messages config.recentMessagesToKeep).messagesToCompact = []
    · exact safeCompact_of_round_zero (compact_noop hsel) rfl
    · exact safeCompact_of_none (compact_genfail hsel (hg _ _ _ _))
  · cases hcomp : compact gen messages sessionId config db with
    | none => exact safeCompact_of_none hcomp
    | some result =>
        by_cases h0 : result.compactionEvent.round = 0
        · have h1 := @safeCompact_of_round_zero gen true messages sessionId config
            db result hcomp h0
          rw [compact_round_zero_inv hcomp h0] at h1
          exact h1
        · simp only [safeCompact, hcomp]
          rw [if_neg h0]
          by_cases h : result.boundaryIndex < (getActiveMessages sessionId db).length
          · rw [dif_pos h]
            rfl
          · rw [dif_neg h]
  · intro result hcomp h0 hge
    simp only [safeCompact, hcomp]
    rw [if_neg h0, dif_neg (by omega)]

/-- Witness for C4: a generator that always fails leaves a concrete list
and database untouched. -/
theorem claim4_witness :
    safeCompact (fun _ _ _ _ => none) false
        [ChatMessage.mk Role.system (MessageContent.str "S"),
         ChatMessage.mk Role.user (MessageContent.str "A"),
         ChatMessage.mk Role.user (MessageContent.str "B"),
         ChatMessage.mk Role.user (MessageContent.str "C")]
        "s" (CompactionConfig.mk 0 0 0 0 0 1) (DB.mk [] []) =
      ([ChatMessage.mk Role.system (MessageContent.str "S"),
        ChatMessage.mk Role.user (MessageContent.str "A"),
        ChatMessage.mk Role.user (MessageContent.str "B"),
        ChatMessage.mk Role.user (MessageContent.str "C")], DB.mk [] []) :=
  (claim4_failure_atomicity (fun _ _ _ _ => none) false
    [ChatMessage.mk Role.system (MessageContent.str "S"),
     ChatMessage.mk Role.user (MessageContent.str "A"),
     ChatMessage.mk Role.user (MessageContent.str "B"),
     ChatMessage.mk Role.user (MessageContent.str "C")]
    "s" (CompactionConfig.mk 0 0 0 0 0 1) (DB.mk [] [])).1 (fun _ _ _ _ => rfl)
